import Mathlib

/-!
# git-credential-keyring: a shallow embedding of `credential-keyring.c`

The program is a sequential command-line helper.  Its collaborators (libc's
`strdup` and `getopt_long`, the GNOME keyring and the GNOME password dialog) are
external libraries; they appear here as fields of an environment `Env`, so that
every theorem about `main` holds for every behaviour of those libraries.
The process state that the claims observe (keyring contents, standard output,
standard error, the sequence of library calls) is threaded explicitly.
-/

namespace CredentialKeyring

/-- A C string: the characters before the terminating NUL.  A `char *` that may
be `NULL` is an `Option CStr`. -/
abbrev CStr := List Char

/-- The `struct url_parts` of the source (lines 29-33). -/
structure url_parts where
  protocol : CStr
  server : CStr
deriving DecidableEq

/-- The result codes of `gnome-keyring.h`. -/
inductive GnomeKeyringResult where
  | OK
  | DENIED
  | NO_KEYRING_DAEMON
  | ALREADY_UNLOCKED
  | NO_SUCH_KEYRING
  | BAD_ARGUMENTS
  | IO_ERROR
  | CANCELLED
  | KEYRING_ALREADY_EXISTS
  | NO_MATCH
deriving DecidableEq

/-- The fields of `GnomeKeyringNetworkPasswordData` (gnome-keyring.h) that the
program or the reference keyring reads. -/
structure GnomeKeyringNetworkPasswordData where
  keyring : Option CStr
  item_id : Nat
  protocol : CStr
  server : CStr
  user : Option CStr
  password : Option CStr
deriving DecidableEq

/-- One call made to the keyring library or to the password dialog, with the
arguments the program passed. -/
inductive Call where
  | find_network_password (user : Option CStr) (server protocol : CStr)
  | set_network_password (user : Option CStr) (server protocol : CStr)
      (password : Option CStr)
  | item_delete (keyring : Option CStr) (item_id : Nat)
  | password_dialog (username : Option CStr)
deriving DecidableEq

/-- The observable process state; `σ` is the state of the keyring daemon. -/
structure World (σ : Type) where
  keyring : σ
  strdups : Nat
  stdout : CStr
  stderr : CStr
  calls : List Call

/-- The external libraries.  `strdup_errno n` is `none` when the `n`-th call of
`strdup` succeeds and `some e` when it returns `NULL` with `errno = e`. -/
structure Env (σ : Type) where
  strdup_errno : Nat → Option Nat
  strerror : Nat → CStr
  result_to_message : GnomeKeyringResult → CStr
  find_network_password : σ → Option CStr → CStr → CStr →
    GnomeKeyringResult × List GnomeKeyringNetworkPasswordData × σ
  set_network_password : σ → Option CStr → CStr → CStr → Option CStr →
    GnomeKeyringResult × σ
  item_delete : σ → Option CStr → Nat → GnomeKeyringResult × σ
  password_dialog : Option CStr → Option (CStr × CStr)

/-- How a piece of the program ends: it returns a value, the process
terminates through `exit`, or the behaviour is undefined (a `NULL` pointer is
dereferenced). -/
inductive Outcome (σ α : Type) where
  | ret (a : α) (w : World σ)
  | exit (code : Nat) (w : World σ)
  | undefined (w : World σ)

/-- A statement of the program: a state transformer that may terminate the
process. -/
def Prog (σ α : Type) : Type := World σ → Outcome σ α

/-- Sequencing: what follows runs only when the first part returns. -/
def Prog.bind {σ α β : Type} (m : Prog σ α) (f : α → Prog σ β) : Prog σ β :=
  fun w =>
    match m w with
    | .ret a w1 => f a w1
    | .exit code w1 => .exit code w1
    | .undefined w1 => .undefined w1

/-- Return a value without touching the state. -/
def Prog.pure {σ α : Type} (a : α) : Prog σ α := fun w => .ret a w

instance {σ : Type} : Monad (Prog σ) where
  pure := Prog.pure
  bind := Prog.bind

/-- The call `exit(code)`. -/
def exit {σ α : Type} (code : Nat) : Prog σ α := fun w => .exit code w

/-- The call `gtk_exit(code)`, which ends the process with that code. -/
def gtk_exit {σ α : Type} (code : Nat) : Prog σ α := exit code

/-- Undefined behaviour. -/
def undefined_behaviour {σ α : Type} : Prog σ α := fun w => .undefined w

/-- Write to the standard error stream. -/
def eprint {σ : Type} (s : CStr) : Prog σ Unit :=
  fun w => .ret () { w with stderr := w.stderr ++ s }

/-- Write to the standard output stream. -/
def print {σ : Type} (s : CStr) : Prog σ Unit :=
  fun w => .ret () { w with stdout := w.stdout ++ s }

/-- Source lines 36-46: `die` prints `fatal: ` and the formatted message on
stderr and exits with code 1.  The argument is the message after formatting. -/
def die {σ α : Type} (msg : CStr) : Prog σ α := do
  eprint "fatal: ".toList
  eprint msg
  exit 1

/-- Source lines 49-54. -/
def die_errno {σ α : Type} (env : Env σ) (err : Nat) : Prog σ α := do
  eprint ("fatal: ".toList ++ env.strerror err ++ "\n".toList)
  exit 1

/-- Source lines 57-63. -/
def die_result {σ α : Type} (env : Env σ) (result : GnomeKeyringResult) :
    Prog σ α := do
  eprint ("fatal: ".toList ++ env.result_to_message result ++ "\n".toList)
  exit 1

/-- The libc call `strdup`: `none` is a `NULL` return, with the `errno` it
set.  Duplicating a `NULL` pointer is undefined. -/
def strdup {σ : Type} (env : Env σ) (str : Option CStr) :
    Prog σ (Option CStr × Nat) :=
  fun w =>
    match str with
    | none => .undefined w
    | some s =>
      match env.strdup_errno w.strdups with
      | none => .ret (some s, 0) { w with strdups := w.strdups + 1 }
      | some e => .ret (none, e) { w with strdups := w.strdups + 1 }

/-- Source lines 66-76. -/
def xstrdup {σ : Type} (env : Env σ) (str : Option CStr) : Prog σ CStr := do
  let (ret, errno) ← strdup env str
  match ret with
  | none => die_errno env errno
  | some r => pure r

/-- The libc function `strspn`: length of the initial run of characters that
are in `accept`. -/
def strspn (s accept : CStr) : Nat := (s.takeWhile (fun c => c ∈ accept)).length

/-- The libc function `strcspn`: length of the initial run of characters that
are not in `reject`. -/
def strcspn (s reject : CStr) : Nat := (s.takeWhile (fun c => c ∉ reject)).length

/-- The libc function `strtok`, with its hidden static pointer made explicit:
the result is the token (`none` for `NULL`) and the new saved pointer.  A first
argument `none` continues from the saved pointer. -/
def strtok (str : Option CStr) (delim : CStr) (save_ptr : CStr) :
    Option CStr × CStr :=
  let s := match str with
    | some s => s
    | none => save_ptr
  let s := s.drop (strspn s delim)
  if s = [] then (none, s)
  else
    let n := strcspn s delim
    (some (s.take n), (s.drop n).drop 1)

/-- The formatted message of `die("invalid token passed: '%s'", token)`. -/
def invalid_token_msg (token : CStr) : CStr :=
  "invalid token passed: ".toList ++ [Char.ofNat 39] ++ token ++ [Char.ofNat 39]

/-- Source lines 195-219. -/
def split_unique {σ : Type} (env : Env σ) (token : CStr) : Prog σ url_parts := do
  let tmp ← xstrdup env (some token)
  -- Get the protocol
  let (pch, save) := strtok (some tmp) ":".toList []
  match pch with
  | none => die (invalid_token_msg token)
  | some pch =>
    let protocol ← xstrdup env (some pch)
    let (pch, _) := strtok none ":".toList save
    match pch with
    | none => die (invalid_token_msg token)
    | some pch =>
      let server ← xstrdup env (some pch)
      pure { protocol := protocol, server := server }

/-- The blocking call `gnome_keyring_find_network_password_sync`; domain,
object, authtype and port are always `NULL`/`0` in this program. -/
def gnome_keyring_find_network_password_sync {σ : Type} (env : Env σ)
    (user : Option CStr) (server protocol : CStr) :
    Prog σ (GnomeKeyringResult × List GnomeKeyringNetworkPasswordData) :=
  fun w =>
    let r := env.find_network_password w.keyring user server protocol
    .ret (r.1, r.2.1)
      { w with keyring := r.2.2,
               calls := w.calls ++ [.find_network_password user server protocol] }

/-- The blocking call `gnome_keyring_set_network_password_sync` on the default
keyring. -/
def gnome_keyring_set_network_password_sync {σ : Type} (env : Env σ)
    (user : Option CStr) (server protocol : CStr) (password : Option CStr) :
    Prog σ GnomeKeyringResult :=
  fun w =>
    let r := env.set_network_password w.keyring user server protocol password
    .ret r.1
      { w with keyring := r.2,
               calls := w.calls ++
                 [.set_network_password user server protocol password] }

/-- The blocking call `gnome_keyring_item_delete_sync`. -/
def gnome_keyring_item_delete_sync {σ : Type} (env : Env σ)
    (keyring : Option CStr) (item_id : Nat) : Prog σ GnomeKeyringResult :=
  fun w =>
    let r := env.item_delete w.keyring keyring item_id
    .ret r.1
      { w with keyring := r.2, calls := w.calls ++ [.item_delete keyring item_id] }

/-- The password dialog, from `gnome_password_dialog_new` to
`gnome_password_dialog_run_and_block`: `none` when the user dismisses it,
otherwise the username and password typed in. -/
def gnome_password_dialog_run_and_block {σ : Type} (env : Env σ)
    (username : Option CStr) : Prog σ (Option (CStr × CStr)) :=
  fun w =>
    .ret (env.password_dialog username)
      { w with calls := w.calls ++ [.password_dialog username] }

/-- Source lines 79-119. -/
def remove_credential {σ : Type} (env : Env σ) (username : Option CStr)
    (parts : url_parts) : Prog σ Unit := do
  let (result, entries) ←
    gnome_keyring_find_network_password_sync env username parts.server parts.protocol
  if result = .NO_MATCH then
    pure ()
  else if result = .CANCELLED then
    pure ()
  else do
    if result ≠ .OK then
      die_result env result
    -- Pick the first one from the list.
    match entries with
    | [] => undefined_behaviour
    | passwordData :: _ =>
      let result ←
        gnome_keyring_item_delete_sync env passwordData.keyring passwordData.item_id
      if result ≠ .OK then
        die_result env result
      pure ()

/-- Source lines 122-170.  The result is the returned password together with
the final values of `*username` and `*cancelled`. -/
def lookup_credential {σ : Type} (env : Env σ) (username : Option CStr)
    (parts : url_parts) : Prog σ (Option CStr × Option CStr × Int) := do
  let (result, entries) ←
    gnome_keyring_find_network_password_sync env username parts.server parts.protocol
  if result = .NO_MATCH then
    pure (none, username, 0)
  else if result = .CANCELLED then
    pure (none, username, 1)
  else do
    if result ≠ .OK then
      die_result env result
    -- Pick the first one from the list.
    match entries with
    | [] => undefined_behaviour
    | passwordData :: _ =>
      let password ← xstrdup env passwordData.password
      match username with
      | none =>
        let user ← xstrdup env passwordData.user
        pure (some password, some user, 0)
      | some u => pure (some password, some u, 0)

/-- Source lines 173-192: the result of the keyring call is not looked at. -/
def store_credential {σ : Type} (env : Env σ) (parts : url_parts)
    (username password : Option CStr) : Prog σ Unit := do
  let _ ← gnome_keyring_set_network_password_sync env username parts.server
    parts.protocol password
  pure ()

/-- Source lines 222-259.  The result is the returned flag together with the
final values of `*username` and `*password`. -/
def ask_credentials_gui {σ : Type} (env : Env σ) (username password : Option CStr) :
    Prog σ (Int × Option CStr × Option CStr) := do
  let result ← gnome_password_dialog_run_and_block env username
  match result with
  | none => pure (0, username, password)
  | some (u, p) =>
    let username ← xstrdup env (some u)
    let password ← xstrdup env (some p)
    pure (1, some username, some password)

/-- One return of `getopt_long`: the value returned, `optarg` afterwards, the
value stored through the `flag` pointer of the matched long option (only
`&reject` occurs in the table), and the diagnostic it printed on stderr. -/
structure GetoptReturn where
  c : Int
  optarg : Option CStr
  flag : Option Int
  message : CStr
deriving DecidableEq

/-- The local variables of `main` that option parsing assigns. -/
structure Options where
  reject : Int
  username : Option CStr
  description : Option CStr
  unique : Option CStr
deriving DecidableEq

/-- A character constant as the `int` that `getopt_long` returns. -/
def chr (c : Char) : Int := (c.toNat : Int)

/-- Source lines 286-315: the option loop, over the successive returns of
`getopt_long`.  The end of the list stands for the return value `-1`. -/
def getopt_loop {σ : Type} : List GetoptReturn → Options → Prog σ Options
  | [], o => pure o
  | r :: rest, o => do
    eprint r.message
    let o := match r.flag with
      | some v => { o with reject := v }
      | none => o
    if r.c = -1 then
      pure o
    else if r.c = 0 then
      getopt_loop rest o
    else if r.c = chr 'u' then
      getopt_loop rest { o with username := r.optarg }
    else if r.c = chr 'd' then
      getopt_loop rest { o with description := r.optarg }
    else if r.c = chr 't' then
      getopt_loop rest { o with unique := r.optarg }
    else if r.c = chr '?' then
      -- getopt already printed an error message.
      getopt_loop rest o
    else
      die "unrecognized option".toList

/-- The conversion `%s` of `printf`; glibc prints `(null)` for a `NULL`
argument. -/
def fmt_s : Option CStr → CStr
  | some s => s
  | none => "(null)".toList

/-- The output of `printf("username=%s\npassword=%s\n", username, password)`. -/
def credential_lines (username password : Option CStr) : CStr :=
  "username=".toList ++ fmt_s username ++ "\npassword=".toList ++ fmt_s password ++
    "\n".toList

/-- Source lines 262-356, from the option loop on (the command line is the one
that `gtk_init` leaves).  `argv` lists the returns of `getopt_long` and `stray`
tells whether `optind < argc` holds after the loop. -/
def main {σ : Type} (env : Env σ) (argv : List GetoptReturn) (stray : Bool) :
    Prog σ Int := do
  let o ← getopt_loop argv
    { reject := 0, username := none, description := none, unique := none }
  if stray then
    die "fatal: unrecognized arguments passed to git-credential-keyring.\n".toList
  match o.unique with
  | none =>
    -- Not sure what to do here... so pass on it for now.
    gtk_exit 0
  | some unique =>
    let parts ← split_unique env unique
    if o.reject ≠ 0 then
      remove_credential env o.username parts
      gtk_exit 0
    let (password, username, cancelled) ← lookup_credential env o.username parts
    let (username, password) ←
      match password with
      | some p => (pure (username, some p) : Prog σ (Option CStr × Option CStr))
      | none => do
        if cancelled ≠ 0 then
          gtk_exit 0
        let (asked, username, password) ← ask_credentials_gui env username password
        if asked = 0 then
          gtk_exit 0
        store_credential env parts username password
        pure (username, password)
    print (credential_lines username password)
    gtk_exit 0

/-! ## The option table and concrete command lines -/

/-- One row of the `long_options` table: `flag` tells whether the row's flag
pointer is `&reject` (true) or `0`. -/
structure long_option where
  name : CStr
  has_arg : Bool
  flag : Bool
  val : Int
deriving DecidableEq

/-- Source lines 275-282. -/
def long_options : List long_option :=
  [ { name := "reject".toList, has_arg := false, flag := true, val := 1 },
    { name := "username".toList, has_arg := true, flag := false, val := chr 'u' },
    { name := "description".toList, has_arg := true, flag := false, val := chr 'd' },
    { name := "unique".toList, has_arg := true, flag := false, val := chr 't' } ]

/-- The row of `long_options` that `getopt_long` selects for `--name`, after
getopt(3): an exact match, or else the only row of which `name` is an
abbreviation; `none` when no row or several rows qualify. -/
def find_long_option (name : CStr) : Option long_option :=
  match long_options.find? (fun o => o.name = name) with
  | some o => some o
  | none =>
    match long_options.filter (fun o => name.isPrefixOf o.name) with
    | [o] => some o
    | _ => none

/-- One return of `getopt_long` on an argument `--name` (with `arg = none`, or
with the next command-line word as `arg` when the row requires an argument) or
`--name=arg`, after getopt(3): for a row with a null `flag` it returns `val`,
otherwise it stores `val` through `flag` and returns 0; for an unknown or
ambiguous name, an argument given to a row without argument, or a missing
required argument, it prints its own diagnostic and returns `?`. -/
def getopt_long (name : CStr) (arg : Option CStr) (diagnostic : CStr) : GetoptReturn :=
  match find_long_option name with
  | some o =>
    if o.has_arg != arg.isSome then
      { c := chr '?', optarg := none, flag := none, message := diagnostic }
    else if o.flag then { c := 0, optarg := arg, flag := some o.val, message := [] }
    else { c := o.val, optarg := arg, flag := none, message := [] }
  | none => { c := chr '?', optarg := none, flag := none, message := diagnostic }

/-- The process state at the start of `main`, for a keyring in state `k`. -/
def start {σ : Type} (k : σ) : World σ :=
  { keyring := k, strdups := 0, stdout := [], stderr := [], calls := [] }

/-! ## A reference keyring -/

/-- Modelled from the spec: the secret store of section 4.2, which belongs to
the GNOME keyring daemon and not to this repository.  It is the list of stored
entries. -/
abbrev Store := List GnomeKeyringNetworkPasswordData

/-- Modelled from the spec: an entry matches a query when server and protocol
agree and the queried user, if given, is the entry's user. -/
def Store.matches (user : Option CStr) (server protocol : CStr)
    (e : GnomeKeyringNetworkPasswordData) : Bool :=
  decide (e.server = server) && decide (e.protocol = protocol) &&
    (decide (user = none) || decide (e.user = user))

/-- Modelled from the spec: `find` of section 4.2.  It reports "no match" when
nothing matches and otherwise lists the matching entries in stored order, of
which the program takes the first. -/
def Store.find (s : Store) (user : Option CStr) (server protocol : CStr) :
    GnomeKeyringResult × List GnomeKeyringNetworkPasswordData × Store :=
  match s.filter (Store.matches user server protocol) with
  | [] => (.NO_MATCH, [], s)
  | e :: es => (.OK, e :: es, s)

/-- Modelled from the spec: the entry that `store` creates, under an item id
not yet in use. -/
def Store.fresh (s : Store) (user : Option CStr) (server protocol : CStr)
    (password : Option CStr) : GnomeKeyringNetworkPasswordData :=
  { keyring := none, item_id := (s.map (fun e => e.item_id)).foldr max 0 + 1,
    protocol := protocol, server := server, user := user, password := password }

/-- Modelled from the spec: `store` of section 4.2, "upsert semantics - creates
or overwrites the keyring entry for the given identifier/username tuple". -/
def Store.set (s : Store) (user : Option CStr) (server protocol : CStr)
    (password : Option CStr) : GnomeKeyringResult × Store :=
  if s.any (fun e => decide (e.user = user) && decide (e.server = server) &&
      decide (e.protocol = protocol)) then
    (.OK, s.map (fun e =>
      if e.user = user ∧ e.server = server ∧ e.protocol = protocol then
        { e with password := password }
      else e))
  else
    (.OK, s ++ [Store.fresh s user server protocol password])

/-- Modelled from the spec: `delete` of section 4.2 on the item the program
picked; "deleting when nothing matches is a no-op, not an error". -/
def Store.delete (s : Store) (_keyring : Option CStr) (item_id : Nat) :
    GnomeKeyringResult × Store :=
  (.OK, s.filter (fun e => e.item_id ≠ item_id))

/-- The environment whose keyring is the reference keyring and in which
`strdup` never fails; `dialog` is the behaviour of the password dialog. -/
def reference_env (dialog : Option CStr → Option (CStr × CStr)) : Env Store :=
  { strdup_errno := fun _ => none
    strerror := fun _ => "Cannot allocate memory".toList
    result_to_message := fun _ => "keyring error".toList
    find_network_password := Store.find
    set_network_password := Store.set
    item_delete := Store.delete
    password_dialog := dialog }

/-- A keyring that answers every call with a fixed result and leaves its state
alone, and a dialog with a fixed answer; `strdup` never fails.  For concrete
runs. -/
def scripted_env (find : GnomeKeyringResult)
    (entries : List GnomeKeyringNetworkPasswordData) (set delete : GnomeKeyringResult)
    (dialog : Option (CStr × CStr)) : Env Unit :=
  { strdup_errno := fun _ => none
    strerror := fun _ => "Cannot allocate memory".toList
    result_to_message := fun _ => "keyring error".toList
    find_network_password := fun s _ _ _ => (find, entries, s)
    set_network_password := fun s _ _ _ _ => (set, s)
    item_delete := fun s _ _ => (delete, s)
    password_dialog := fun _ => dialog }

/-- The stored entry of Scenario A: `(alice, https, example.com) -> "secret"`. -/
def alice_entry : GnomeKeyringNetworkPasswordData :=
  { keyring := none, item_id := 1, protocol := "https".toList,
    server := "example.com".toList, user := some "alice".toList,
    password := some "secret".toList }

/-! ## Vocabulary of the specification -/

/-- The `:`-separated segments of a token (specification section 4.1). -/
def segments (token : CStr) : List CStr := token.splitOn ':'

/-- The non-empty segments of a token, in order. -/
def tokens (token : CStr) : List CStr := (segments token).filter (fun s => !s.isEmpty)

/-- The world in which a piece of the program ended. -/
def Outcome.world {σ α : Type} : Outcome σ α → World σ
  | .ret _ w => w
  | .exit _ w => w
  | .undefined w => w

/-- The identifier invariant of section 3 on a string: it is not empty and does
not contain the delimiter. -/
def segment_ok (s : CStr) : Prop := s ≠ [] ∧ ':' ∉ s

/-- A keyring call that takes a protocol and a server receives well-formed
ones. -/
def Call.identifier_ok : Call → Prop
  | .find_network_password _ server protocol => segment_ok protocol ∧ segment_ok server
  | .set_network_password _ server protocol _ => segment_ok protocol ∧ segment_ok server
  | .item_delete _ _ => True
  | .password_dialog _ => True

/-- Every keyring call made so far received a well-formed protocol and server. -/
def calls_ok {σ : Type} (w : World σ) : Prop := ∀ c ∈ w.calls, c.identifier_ok

/-- An invariant that does not look at stderr or at the count of `strdup`
calls. -/
def Stable {σ : Type} (I : World σ → Prop) : Prop :=
  ∀ (w : World σ) (e : CStr) (n : Nat), I w → I { w with stderr := e, strdups := n }

/-- The statement `m` preserves the invariant `I` however it ends, and a value
it returns satisfies `Q`. -/
def Prog.keeps {σ α : Type} (I : World σ → Prop) (m : Prog σ α) (Q : α → Prop) : Prop :=
  ∀ w, I w → I (m w).world ∧ ∀ a w1, m w = .ret a w1 → Q a

/-! ## Lemmas on the monad and on `strtok` -/

variable {σ α β : Type}

@[simp] theorem bind_apply (m : Prog σ α) (f : α → Prog σ β) (w : World σ) :
    (m >>= f) w = match m w with
      | .ret a w1 => f a w1
      | .exit code w1 => .exit code w1
      | .undefined w1 => .undefined w1 := rfl

@[simp] theorem pure_apply (a : α) (w : World σ) : (pure a : Prog σ α) w = .ret a w := rfl

theorem xstrdup_ok (env : Env σ) (hmem : ∀ n, env.strdup_errno n = none) (s : CStr)
    (w : World σ) :
    xstrdup env (some s) w = .ret s { w with strdups := w.strdups + 1 } := by
  simp [xstrdup, strdup, hmem]

theorem split_unique_ok (env : Env σ) (hmem : ∀ n, env.strdup_errno n = none)
    (token : CStr) (w : World σ) :
    split_unique env token w =
      match (strtok (some token) ":".toList []).1 with
      | none => .exit 1 { w with
          strdups := w.strdups + 1
          stderr := w.stderr ++ "fatal: ".toList ++ invalid_token_msg token }
      | some p =>
        match (strtok none ":".toList (strtok (some token) ":".toList []).2).1 with
        | none => .exit 1 { w with
            strdups := w.strdups + 2
            stderr := w.stderr ++ "fatal: ".toList ++ invalid_token_msg token }
        | some h => .ret ⟨p, h⟩ { w with strdups := w.strdups + 3 } := by
  simp only [split_unique, bind_apply, xstrdup_ok env hmem]
  rcases h1 : strtok (some token) ":".toList [] with ⟨_ | p, save⟩
  · simp [die, eprint, exit]
  · simp only [bind_apply, xstrdup_ok env hmem]
    rcases h2 : strtok none ":".toList save with ⟨_ | h, save2⟩
    · simp [die, eprint, exit]
    · simp [xstrdup_ok env hmem]

theorem drop_length_takeWhile (p : Char → Bool) (l : CStr) :
    l.drop (l.takeWhile p).length = l.dropWhile p := by
  induction l with
  | nil => rfl
  | cons c cs ih =>
    by_cases h : p c <;> simp [List.takeWhile, List.dropWhile, h, ih]

theorem take_length_takeWhile (p : Char → Bool) (l : CStr) :
    l.take (l.takeWhile p).length = l.takeWhile p := by
  induction l with
  | nil => rfl
  | cons c cs ih =>
    by_cases h : p c <;> simp [List.takeWhile, h, ih]

theorem strtok_some (s sv : CStr) :
    strtok (some s) ":".toList sv =
      if s.dropWhile (fun c => c == ':') = [] then (none, [])
      else (some ((s.dropWhile (fun c => c == ':')).takeWhile (fun c => c != ':')),
            ((s.dropWhile (fun c => c == ':')).dropWhile (fun c => c != ':')).drop 1) := by
  have e1 : (fun c : Char => decide (c ∈ ":".toList)) = (fun c => c == ':') := by
    funext c; by_cases h : c = ':' <;> simp [h]
  have e2 : (fun c : Char => decide (c ∉ ":".toList)) = (fun c => c != ':') := by
    funext c; by_cases h : c = ':' <;> simp [h]
  simp only [strtok, strspn, strcspn, e1, e2, drop_length_takeWhile, take_length_takeWhile]
  split_ifs with h <;> simp [h]

theorem strtok_none (sv : CStr) :
    strtok none ":".toList sv = strtok (some sv) ":".toList [] := rfl

theorem tokens_nil : tokens [] = [] := rfl

theorem tokens_colon (s : CStr) : tokens (':' :: s) = tokens s := by
  simp [tokens, segments, List.splitOn]

theorem tokens_dropWhile (s : CStr) : tokens (s.dropWhile (fun c => c == ':')) = tokens s := by
  induction s with
  | nil => rfl
  | cons c cs ih =>
    by_cases h : c = ':'
    · subst h; simp [List.dropWhile_cons, tokens_colon, ih]
    · simp [List.dropWhile_cons, h]

theorem tokens_single (t : CStr) (ht : t ≠ []) (hc : ':' ∉ t) : tokens t = [t] := by
  have : segments t = [t] := by
    unfold segments List.splitOn
    apply List.splitOnP_eq_single
    intro x hx hxe
    simp at hxe; subst hxe; exact hc hx
  simp [tokens, this, ht]

theorem tokens_append (t r : CStr) (ht : t ≠ []) (hc : ':' ∉ t) :
    tokens (t ++ ':' :: r) = t :: tokens r := by
  have : segments (t ++ ':' :: r) = t :: segments r := by
    unfold segments List.splitOn
    apply List.splitOnP_first
    · intro x hx hxe
      simp at hxe; subst hxe; exact hc hx
    · simp
  simp [tokens, this, ht]

theorem dropWhile_head (p : Char → Bool) (l : CStr) (c : Char) (cs : CStr)
    (h : l.dropWhile p = c :: cs) : p c = false := by
  induction l with
  | nil => simp at h
  | cons x xs ih =>
    rw [List.dropWhile_cons] at h
    split_ifs at h with hx
    · exact ih h
    · simp only [List.cons.injEq] at h
      rw [← h.1]; simpa using hx

theorem strtok_tokens (s sv : CStr) :
    match tokens s with
    | [] => (strtok (some s) ":".toList sv).1 = none
    | t :: more => (strtok (some s) ":".toList sv).1 = some t ∧
        tokens (strtok (some s) ":".toList sv).2 = more := by
  rw [strtok_some, ← tokens_dropWhile s]
  generalize hs : s.dropWhile (fun c => c == ':') = s1
  match s1, hs with
  | [], _ => simp [tokens_nil]
  | c :: cs, hs =>
    have hc : c ≠ ':' := by
      have := dropWhile_head _ _ _ _ hs
      simpa using this
    have hsplit := List.takeWhile_append_dropWhile (fun c => c != ':') (c :: cs)
    generalize ht : (c :: cs).takeWhile (fun c => c != ':') = t at hsplit
    generalize hr : (c :: cs).dropWhile (fun c => c != ':') = r at hsplit
    have htne : t ≠ [] := by
      rw [← ht, List.takeWhile_cons]; simp [hc]
    have htc : ':' ∉ t := by
      intro hmem
      rw [← ht] at hmem
      have := List.mem_takeWhile_imp hmem
      simp at this
    rw [← hsplit]
    match r, hr with
    | [], _ => simp [tokens_single t htne htc, tokens_nil, htne]
    | d :: r1, hr =>
      have hd : d = ':' := by
        have := dropWhile_head _ _ _ _ hr
        simpa using this
      subst hd
      simp [tokens_append t r1 htne htc, htne]


/-! ## Invariant preservation -/

theorem keeps_pure (I : World σ → Prop) (a : α) (Q : α → Prop) (h : Q a) :
    Prog.keeps I (pure a : Prog σ α) Q := by
  intro w hw
  refine ⟨hw, ?_⟩
  intro b w1 hb
  simp only [pure_apply, Outcome.ret.injEq] at hb
  exact hb.1 ▸ h

theorem keeps_bind (I : World σ → Prop) (m : Prog σ α) (f : α → Prog σ β)
    (Q : α → Prop) (R : β → Prop) (hm : Prog.keeps I m Q)
    (hf : ∀ a, Q a → Prog.keeps I (f a) R) : Prog.keeps I (m >>= f) R := by
  intro w hw
  have h1 := hm w hw
  rw [bind_apply]
  cases hmw : m w with
  | ret a w1 =>
    rw [hmw] at h1
    exact hf a (h1.2 a w1 rfl) w1 h1.1
  | exit code w1 =>
    rw [hmw] at h1
    exact ⟨h1.1, by intro a w2 h; cases h⟩
  | undefined w1 =>
    rw [hmw] at h1
    exact ⟨h1.1, by intro a w2 h; cases h⟩

theorem keeps_weaken (I : World σ → Prop) (m : Prog σ α) (Q R : α → Prop)
    (hm : Prog.keeps I m Q) (h : ∀ a, Q a → R a) : Prog.keeps I m R :=
  fun w hw => ⟨(hm w hw).1, fun a w1 e => h a ((hm w hw).2 a w1 e)⟩

theorem keeps_exit (I : World σ → Prop) (code : Nat) (Q : α → Prop) :
    Prog.keeps I (exit code : Prog σ α) Q :=
  fun _ hw => ⟨hw, by intro a w1 h; cases h⟩

theorem keeps_gtk_exit (I : World σ → Prop) (code : Nat) (Q : α → Prop) :
    Prog.keeps I (gtk_exit code : Prog σ α) Q := keeps_exit I code Q

theorem keeps_undefined (I : World σ → Prop) (Q : α → Prop) :
    Prog.keeps I (undefined_behaviour : Prog σ α) Q :=
  fun _ hw => ⟨hw, by intro a w1 h; cases h⟩

theorem keeps_eprint (I : World σ → Prop) (hI : Stable I) (s : CStr) (Q : Unit → Prop)
    (hQ : Q ()) : Prog.keeps I (eprint s : Prog σ Unit) Q :=
  fun w hw => ⟨hI w (w.stderr ++ s) w.strdups hw, fun _ _ _ => hQ⟩

theorem keeps_die (I : World σ → Prop) (hI : Stable I) (msg : CStr) (Q : α → Prop) :
    Prog.keeps I (die msg : Prog σ α) Q := by
  unfold die
  refine keeps_bind I _ _ (fun _ => True) Q (keeps_eprint I hI _ _ trivial) ?_
  intro _ _
  refine keeps_bind I _ _ (fun _ => True) Q (keeps_eprint I hI _ _ trivial) ?_
  intro _ _
  exact keeps_exit I 1 Q

theorem keeps_die_errno (I : World σ → Prop) (hI : Stable I) (env : Env σ) (err : Nat)
    (Q : α → Prop) : Prog.keeps I (die_errno env err : Prog σ α) Q := by
  unfold die_errno
  refine keeps_bind I _ _ (fun _ => True) Q (keeps_eprint I hI _ _ trivial) ?_
  intro _ _
  exact keeps_exit I 1 Q

theorem keeps_die_result (I : World σ → Prop) (hI : Stable I) (env : Env σ)
    (result : GnomeKeyringResult) (Q : α → Prop) :
    Prog.keeps I (die_result env result : Prog σ α) Q := by
  unfold die_result
  refine keeps_bind I _ _ (fun _ => True) Q (keeps_eprint I hI _ _ trivial) ?_
  intro _ _
  exact keeps_exit I 1 Q

theorem keeps_xstrdup (I : World σ → Prop) (hI : Stable I) (env : Env σ)
    (str : Option CStr) :
    Prog.keeps I (xstrdup env str) (fun r => str = some r) := by
  unfold xstrdup
  refine keeps_bind I _ _ (fun x => ∀ r, x.1 = some r → str = some r) _ ?_ ?_
  · intro w hw
    unfold strdup
    cases str with
    | none => exact ⟨hw, by intro a w1 h; cases h⟩
    | some s =>
      cases he : env.strdup_errno w.strdups with
      | none =>
        refine ⟨hI w w.stderr (w.strdups + 1) hw, ?_⟩
        intro a w1 h
        simp only [Outcome.ret.injEq] at h
        rw [← h.1]; simp
      | some e =>
        refine ⟨hI w w.stderr (w.strdups + 1) hw, ?_⟩
        intro a w1 h
        simp only [Outcome.ret.injEq] at h
        rw [← h.1]; simp
  · rintro ⟨ret, errno⟩ hx
    cases ret with
    | none => exact keeps_die_errno I hI env errno _
    | some r => exact keeps_pure I r _ (hx r rfl)

/-- A token returned by `strtok` is not empty and holds no delimiter. -/
theorem strtok_segment_ok (s sv t : CStr)
    (h : (strtok (some s) ":".toList sv).1 = some t) : segment_ok t := by
  rw [strtok_some] at h
  generalize hs : s.dropWhile (fun c => c == ':') = s1 at h
  match s1, hs with
  | [], _ => simp at h
  | c :: cs, hs =>
    have hc : c ≠ ':' := by
      have := dropWhile_head _ _ _ _ hs
      simpa using this
    simp only [reduceCtorEq, if_false, Option.some.injEq] at h
    subst h
    constructor
    · rw [List.takeWhile_cons]; simp [hc]
    · intro hmem
      have := List.mem_takeWhile_imp hmem
      simp at this

theorem keeps_split_unique (I : World σ → Prop) (hI : Stable I) (env : Env σ)
    (token : CStr) :
    Prog.keeps I (split_unique env token)
      (fun parts => segment_ok parts.protocol ∧ segment_ok parts.server) := by
  unfold split_unique
  refine keeps_bind I _ _ _ _ (keeps_xstrdup I hI env _) ?_
  intro tmp htmp
  simp only [Option.some.injEq] at htmp
  subst htmp
  rcases h1 : strtok (some token) ":".toList [] with ⟨_ | p, save⟩
  · exact keeps_die I hI _ _
  · have hp : segment_ok p := strtok_segment_ok token [] p (by rw [h1])
    refine keeps_bind I _ _ _ _ (keeps_xstrdup I hI env _) ?_
    intro protocol hprotocol
    simp only [Option.some.injEq] at hprotocol
    subst hprotocol
    rcases h2 : strtok none ":".toList save with ⟨_ | h, save2⟩
    · exact keeps_die I hI _ _
    · have hh : segment_ok h := strtok_segment_ok save [] h (by rw [← strtok_none, h2])
      refine keeps_bind I _ _ _ _ (keeps_xstrdup I hI env _) ?_
      intro server hserver
      simp only [Option.some.injEq] at hserver
      subst hserver
      exact keeps_pure I _ _ ⟨hp, hh⟩

theorem keeps_getopt_loop (I : World σ → Prop) (hI : Stable I)
    (argv : List GetoptReturn) (o : Options) :
    Prog.keeps I (getopt_loop argv o : Prog σ Options) (fun _ => True) := by
  induction argv generalizing o with
  | nil => exact keeps_pure I _ _ trivial
  | cons r rest ih =>
    unfold getopt_loop
    refine keeps_bind I _ _ (fun _ => True) _ (keeps_eprint I hI _ _ trivial) ?_
    intro _ _
    dsimp only
    split_ifs
    · exact keeps_pure I _ _ trivial
    · exact ih _
    · exact ih _
    · exact ih _
    · exact ih _
    · exact ih _
    · exact keeps_die I hI _ _

theorem split_unique_tokens (env : Env σ) (hmem : ∀ n, env.strdup_errno n = none)
    (token : CStr) (w : World σ) :
    split_unique env token w =
      match tokens token with
      | [] => .exit 1 { w with
          strdups := w.strdups + 1
          stderr := w.stderr ++ "fatal: ".toList ++ invalid_token_msg token }
      | [_] => .exit 1 { w with
          strdups := w.strdups + 2
          stderr := w.stderr ++ "fatal: ".toList ++ invalid_token_msg token }
      | p :: h :: _ => .ret ⟨p, h⟩ { w with strdups := w.strdups + 3 } := by
  rw [split_unique_ok env hmem]
  have h1 := strtok_tokens token []
  cases ht : tokens token with
  | nil =>
    rw [ht] at h1
    simp only at h1
    rw [h1]
  | cons p more =>
    rw [ht] at h1
    simp only at h1
    obtain ⟨hp, hmore⟩ := h1
    have h2 := strtok_tokens (strtok (some token) ":".toList []).2 []
    rw [hmore] at h2
    rw [strtok_none]
    cases more with
    | nil =>
      simp only at h2
      rw [hp]; simp only; rw [h2]
    | cons h more2 =>
      simp only at h2
      rw [hp]; simp only; rw [h2.1]

theorem calls_ok_stable : Stable (calls_ok : World σ → Prop) := fun _ _ _ h => h

theorem keeps_xstrdup_any (I : World σ → Prop) (hI : Stable I) (env : Env σ)
    (str : Option CStr) : Prog.keeps I (xstrdup env str) (fun _ => True) :=
  keeps_weaken I _ _ _ (keeps_xstrdup I hI env str) (fun _ _ => trivial)

theorem keeps_find (env : Env σ) (user : Option CStr) (server protocol : CStr)
    (h : segment_ok protocol ∧ segment_ok server) :
    Prog.keeps calls_ok
      (gnome_keyring_find_network_password_sync env user server protocol)
      (fun _ => True) := by
  intro w hw
  refine ⟨?_, fun _ _ _ => trivial⟩
  intro c hc
  simp only [gnome_keyring_find_network_password_sync, Outcome.world, List.mem_append,
    List.mem_singleton] at hc
  rcases hc with hc | rfl
  · exact hw c hc
  · exact h

theorem keeps_set (env : Env σ) (user : Option CStr) (server protocol : CStr)
    (password : Option CStr) (h : segment_ok protocol ∧ segment_ok server) :
    Prog.keeps calls_ok
      (gnome_keyring_set_network_password_sync env user server protocol password)
      (fun _ => True) := by
  intro w hw
  refine ⟨?_, fun _ _ _ => trivial⟩
  intro c hc
  simp only [gnome_keyring_set_network_password_sync, Outcome.world, List.mem_append,
    List.mem_singleton] at hc
  rcases hc with hc | rfl
  · exact hw c hc
  · exact h

theorem keeps_delete (env : Env σ) (keyring : Option CStr) (item_id : Nat) :
    Prog.keeps calls_ok (gnome_keyring_item_delete_sync env keyring item_id)
      (fun _ => True) := by
  intro w hw
  refine ⟨?_, fun _ _ _ => trivial⟩
  intro c hc
  simp only [gnome_keyring_item_delete_sync, Outcome.world, List.mem_append,
    List.mem_singleton] at hc
  rcases hc with hc | rfl
  · exact hw c hc
  · exact trivial

theorem keeps_dialog (env : Env σ) (username : Option CStr) :
    Prog.keeps calls_ok (gnome_password_dialog_run_and_block env username)
      (fun _ => True) := by
  intro w hw
  refine ⟨?_, fun _ _ _ => trivial⟩
  intro c hc
  simp only [gnome_password_dialog_run_and_block, Outcome.world, List.mem_append,
    List.mem_singleton] at hc
  rcases hc with hc | rfl
  · exact hw c hc
  · exact trivial

theorem keeps_print (s : CStr) :
    Prog.keeps calls_ok (print s : Prog σ Unit) (fun _ => True) :=
  fun _ hw => ⟨hw, fun _ _ _ => trivial⟩

theorem keeps_remove_credential (env : Env σ) (username : Option CStr) (parts : url_parts)
    (h : segment_ok parts.protocol ∧ segment_ok parts.server) :
    Prog.keeps calls_ok (remove_credential env username parts) (fun _ => True) := by
  unfold remove_credential
  refine keeps_bind _ _ _ (fun _ => True) _ (keeps_find env _ _ _ h) ?_
  rintro ⟨result, entries⟩ -
  dsimp only
  split_ifs
  · exact keeps_pure _ _ _ trivial
  · exact keeps_pure _ _ _ trivial
  · exact keeps_bind _ _ _ (fun _ => False) _ (keeps_die_result _ calls_ok_stable _ _ _)
      (fun _ h => h.elim)
  · refine keeps_bind _ _ _ (fun _ => True) _ (keeps_pure _ _ _ trivial) ?_
    intro _ _
    cases entries with
    | nil => exact keeps_undefined _ _
    | cons passwordData tail =>
      refine keeps_bind _ _ _ (fun _ => True) _ (keeps_delete env _ _) ?_
      intro result2 _
      dsimp only
      split_ifs
      · exact keeps_bind _ _ _ (fun _ => False) _ (keeps_die_result _ calls_ok_stable _ _ _)
          (fun _ h => h.elim)
      · exact keeps_bind _ _ _ (fun _ => True) _ (keeps_pure _ _ _ trivial)
          (fun _ _ => keeps_pure _ _ _ trivial)


theorem keeps_lookup_credential (env : Env σ) (username : Option CStr) (parts : url_parts)
    (h : segment_ok parts.protocol ∧ segment_ok parts.server) :
    Prog.keeps calls_ok (lookup_credential env username parts) (fun _ => True) := by
  unfold lookup_credential
  refine keeps_bind _ _ _ (fun _ => True) _ (keeps_find env _ _ _ h) ?_
  rintro ⟨result, entries⟩ -
  dsimp only
  split_ifs
  · exact keeps_pure _ _ _ trivial
  · exact keeps_pure _ _ _ trivial
  · exact keeps_bind _ _ _ (fun _ => False) _ (keeps_die_result _ calls_ok_stable _ _ _)
      (fun _ h => h.elim)
  · refine keeps_bind _ _ _ (fun _ => True) _ (keeps_pure _ _ _ trivial) ?_
    intro _ _
    cases entries with
    | nil => exact keeps_undefined _ _
    | cons passwordData tail =>
      refine keeps_bind _ _ _ (fun _ => True) _
        (keeps_xstrdup_any _ calls_ok_stable env _) ?_
      intro password _
      cases username with
      | none =>
        exact keeps_bind _ _ _ (fun _ => True) _
          (keeps_xstrdup_any _ calls_ok_stable env _) (fun _ _ => keeps_pure _ _ _ trivial)
      | some u => exact keeps_pure _ _ _ trivial

theorem keeps_store_credential (env : Env σ) (parts : url_parts)
    (username password : Option CStr)
    (h : segment_ok parts.protocol ∧ segment_ok parts.server) :
    Prog.keeps calls_ok (store_credential env parts username password) (fun _ => True) :=
  keeps_bind _ _ _ (fun _ => True) _ (keeps_set env _ _ _ _ h)
    (fun _ _ => keeps_pure _ _ _ trivial)

theorem keeps_ask_credentials_gui (env : Env σ) (username password : Option CStr) :
    Prog.keeps calls_ok (ask_credentials_gui env username password) (fun _ => True) := by
  unfold ask_credentials_gui
  refine keeps_bind _ _ _ (fun _ => True) _ (keeps_dialog env _) ?_
  intro result _
  match result with
  | none => exact keeps_pure _ _ _ trivial
  | some (u, p) =>
    refine keeps_bind _ _ _ (fun _ => True) _
      (keeps_xstrdup_any _ calls_ok_stable env _) ?_
    intro _ _
    exact keeps_bind _ _ _ (fun _ => True) _
      (keeps_xstrdup_any _ calls_ok_stable env _) (fun _ _ => keeps_pure _ _ _ trivial)

theorem keeps_main (env : Env σ) (argv : List GetoptReturn) (stray : Bool) :
    Prog.keeps calls_ok (main env argv stray) (fun _ => True) := by
  unfold main
  refine keeps_bind _ _ _ (fun _ => True) _ (keeps_getopt_loop _ calls_ok_stable _ _) ?_
  intro o _
  have hprint : ∀ x : Option CStr × Option CStr,
      Prog.keeps calls_ok
        (match x with
          | (username, password) => do
            print (credential_lines username password)
            gtk_exit 0 : Prog σ Int) (fun _ => True) := by
    rintro ⟨u, p⟩
    exact keeps_bind _ _ _ (fun _ => True) _ (keeps_print _)
      (fun _ _ => keeps_gtk_exit _ _ _)
  by_cases hs : stray = true
  · simp only [if_pos hs]
    exact keeps_bind _ _ _ (fun _ => False) _ (keeps_die _ calls_ok_stable _ _)
      (fun _ h => h.elim)
  simp only [if_neg hs]
  refine keeps_bind _ _ _ (fun _ => True) _ (keeps_pure _ _ _ trivial) ?_
  intro _ _
  cases o.unique with
  | none => exact keeps_gtk_exit _ _ _
  | some unique =>
    refine keeps_bind _ _ _ _ _ (keeps_split_unique _ calls_ok_stable env unique) ?_
    intro parts hparts
    by_cases hr : o.reject ≠ 0
    · simp only [if_pos hr]
      refine keeps_bind _ _ _ (fun _ => True) _
        (keeps_remove_credential env _ parts hparts) ?_
      intro _ _
      exact keeps_bind _ _ _ (fun _ => False) _ (keeps_gtk_exit _ _ _)
        (fun _ h => h.elim)
    simp only [if_neg hr]
    refine keeps_bind _ _ _ (fun _ => True) _ (keeps_pure _ _ _ trivial) ?_
    intro _ _
    refine keeps_bind _ _ _ (fun _ => True) _
      (keeps_lookup_credential env _ parts hparts) ?_
    rintro ⟨password, username, cancelled⟩ -
    cases password with
    | some p =>
      exact keeps_bind _ _ _ (fun _ => True) _ (keeps_pure _ _ _ trivial)
        (fun x _ => hprint x)
    | none =>
      by_cases hc : cancelled ≠ 0
      · simp only [if_pos hc]
        exact keeps_bind _ _ _ (fun _ => False) _ (keeps_gtk_exit _ _ _)
          (fun _ h => h.elim)
      simp only [if_neg hc]
      refine keeps_bind _ _ _ (fun _ => True) _ (keeps_pure _ _ _ trivial) ?_
      intro _ _
      refine keeps_bind _ _ _ (fun _ => True) _
        (keeps_ask_credentials_gui env _ _) ?_
      rintro ⟨asked, username2, password2⟩ -
      by_cases ha : asked = 0
      · simp only [if_pos ha]
        exact keeps_bind _ _ _ (fun _ => False) _ (keeps_gtk_exit _ _ _)
          (fun _ h => h.elim)
      simp only [if_neg ha]
      refine keeps_bind _ _ _ (fun _ => True) _ (keeps_pure _ _ _ trivial) ?_
      intro _ _
      refine keeps_bind _ _ _ (fun _ => True) _
        (keeps_store_credential env parts _ _ hparts) ?_
      intro _ _
      exact keeps_bind _ _ _ (fun _ => True) _ (keeps_pure _ _ _ trivial)
        (fun x _ => hprint x)

/-! ## The option loop -/

/-- The option loop writes diagnostics only. -/
theorem getopt_loop_frame (argv : List GetoptReturn) (o o1 : Options) (w w1 : World σ)
    (h : getopt_loop argv o w = .ret o1 w1) :
    w1.keyring = w.keyring ∧ w1.strdups = w.strdups ∧ w1.stdout = w.stdout ∧
      w1.calls = w.calls := by
  induction argv generalizing o w with
  | nil =>
    simp only [getopt_loop, pure_apply, Outcome.ret.injEq] at h
    obtain ⟨-, rfl⟩ := h
    simp
  | cons r rest ih =>
    simp only [getopt_loop, bind_apply, eprint] at h
    split_ifs at h
    · simp only [pure_apply, Outcome.ret.injEq] at h
      obtain ⟨-, rfl⟩ := h
      simp
    all_goals first
      | simpa using ih _ _ h
      | (simp [die, eprint, exit] at h)

/-- The options that the loop returns do not depend on the process state. -/
theorem getopt_loop_indep {τ : Type} (argv : List GetoptReturn) (o o1 : Options)
    (w w1 : World σ) (h : getopt_loop argv o w = .ret o1 w1) (v : World τ) :
    ∃ v1, getopt_loop argv o v = .ret o1 v1 := by
  induction argv generalizing o w v with
  | nil =>
    simp only [getopt_loop, pure_apply, Outcome.ret.injEq] at h
    exact ⟨v, by simp [getopt_loop, h.1]⟩
  | cons r rest ih =>
    simp only [getopt_loop, bind_apply, eprint] at h ⊢
    split_ifs at h ⊢
    · simp only [pure_apply, Outcome.ret.injEq] at h
      exact ⟨_, by rw [pure_apply, h.1]⟩
    all_goals first
      | exact ih _ _ h _
      | (simp [die, eprint, exit] at h)

/-- When `split_unique` returns, it has touched neither the keyring, nor stdout,
nor the call log, and both parts are well formed. -/
theorem split_unique_frame (env : Env σ) (token : CStr) (w w1 : World σ)
    (parts : url_parts) (h : split_unique env token w = .ret parts w1) :
    w1.keyring = w.keyring ∧ w1.stdout = w.stdout ∧ w1.calls = w.calls ∧
      segment_ok parts.protocol ∧ segment_ok parts.server := by
  have hk := keeps_split_unique
    (fun x : World σ => x.keyring = w.keyring ∧ x.stdout = w.stdout ∧ x.calls = w.calls)
    (fun _ _ _ hx => hx) env token w ⟨rfl, rfl, rfl⟩
  rw [h] at hk
  obtain ⟨⟨h1, h2, h3⟩, h4⟩ := hk
  exact ⟨h1, h2, h3, h4 parts w1 rfl⟩

/-- With a working `strdup`, whether `split_unique` returns depends on the
token only. -/
theorem split_unique_indep {τ : Type} (env : Env σ) (env2 : Env τ)
    (hmem : ∀ n, env.strdup_errno n = none) (hmem2 : ∀ n, env2.strdup_errno n = none)
    (token : CStr) (w w1 : World σ) (parts : url_parts)
    (h : split_unique env token w = .ret parts w1) (v : World τ) :
    split_unique env2 token v = .ret parts { v with strdups := v.strdups + 3 } := by
  rw [split_unique_tokens env hmem] at h
  rw [split_unique_tokens env2 hmem2]
  match ht : tokens token, h with
  | [], h => simp at h
  | [_], h => simp at h
  | p :: q :: _, h =>
    simp only [Outcome.ret.injEq] at h
    simp [h.1]

/-! ## The identifier parser -/

/-- C1: for every token `p ++ ":" ++ h ++ rest`, with `p` and `h` non-empty and
free of `:` and `rest` empty or starting with `:`, `split_unique` returns (as
long as `strdup` does not fail) with protocol `p` and server `h`; what follows
the second segment is ignored. -/
theorem split_unique_first_two_segments (env : Env σ)
    (hmem : ∀ n, env.strdup_errno n = none) (p h rest : CStr)
    (hp : segment_ok p) (hh : segment_ok h) (hrest : rest = [] ∨ rest.head? = some ':')
    (w : World σ) :
    split_unique env (p ++ ":".toList ++ h ++ rest) w =
      .ret { protocol := p, server := h } { w with strdups := w.strdups + 3 } := by
  have h2 : ∃ more, tokens (h ++ rest) = h :: more := by
    rcases hrest with rfl | hrest
    · exact ⟨[], by simpa using tokens_single h hh.1 hh.2⟩
    · cases rest with
      | nil => simp at hrest
      | cons c r =>
        simp only [List.head?_cons, Option.some.injEq] at hrest
        subst hrest
        exact ⟨tokens r, tokens_append h r hh.1 hh.2⟩
  obtain ⟨more, hmore⟩ := h2
  have h1 : tokens (p ++ ":".toList ++ h ++ rest) = p :: h :: more := by
    have := tokens_append p (h ++ rest) hp.1 hp.2
    simpa [hmore] using this
  rw [split_unique_tokens env hmem, h1]

/-- C1, at the token `https:example.com:8080`. -/
theorem split_unique_first_two_segments_witness :
    segment_ok "https".toList ∧ segment_ok "example.com".toList ∧
      split_unique (reference_env (fun _ => none)) "https:example.com:8080".toList
          (start []) =
        .ret { protocol := "https".toList, server := "example.com".toList }
          { start [] with strdups := 3 } :=
  ⟨⟨by decide, by decide⟩, ⟨by decide, by decide⟩,
    split_unique_first_two_segments (reference_env (fun _ => none)) (fun _ => rfl)
      "https".toList "example.com".toList ":8080".toList ⟨by decide, by decide⟩
      ⟨by decide, by decide⟩ (Or.inr rfl) (start [])⟩

/-- C2, refuted as stated: the second `:`-separated segment of
`https::example.com` and the first one of `:https:example.com` are empty, and
`split_unique` returns on both tokens, with protocol `https` and server
`example.com`. -/
theorem split_unique_accepts_empty_segment :
    (segments "https::example.com".toList)[1]? = some [] ∧
      split_unique (reference_env (fun _ => none)) "https::example.com".toList
          (start []) =
        .ret { protocol := "https".toList, server := "example.com".toList }
          { start [] with strdups := 3 } ∧
      (segments ":https:example.com".toList)[0]? = some [] ∧
      split_unique (reference_env (fun _ => none)) ":https:example.com".toList
          (start []) =
        .ret { protocol := "https".toList, server := "example.com".toList }
          { start [] with strdups := 3 } :=
  ⟨by decide, rfl, by decide, rfl⟩

/-- C2, amended: for every token that holds no `:`, or more generally has fewer
than two non-empty `:`-separated segments, `split_unique` ends the process with
exit code 1 after writing `fatal: invalid token passed: '<token>'` on stderr
(as long as `strdup` does not fail); nothing is returned, and stdout, keyring
and call log are untouched. -/
theorem split_unique_dies (env : Env σ) (hmem : ∀ n, env.strdup_errno n = none)
    (token : CStr) (w : World σ)
    (h : ':' ∉ token ∨ (tokens token).length < 2) :
    ∃ w1, split_unique env token w = .exit 1 w1 ∧
      w1.stderr = w.stderr ++ "fatal: invalid token passed: ".toList ++ [Char.ofNat 39] ++
        token ++ [Char.ofNat 39] ∧
      w1.stdout = w.stdout ∧ w1.calls = w.calls ∧ w1.keyring = w.keyring := by
  have hlen : (tokens token).length < 2 := by
    rcases h with h | h
    · cases token with
      | nil => simp [tokens_nil]
      | cons c cs => simp [tokens_single (c :: cs) (by simp) h]
    · exact h
  rw [split_unique_tokens env hmem]
  match ht : tokens token, hlen with
  | [], _ => exact ⟨_, rfl, by simp [invalid_token_msg], rfl, rfl, rfl⟩
  | [_], _ => exact ⟨_, rfl, by simp [invalid_token_msg], rfl, rfl, rfl⟩
  | _ :: _ :: _, hlen => simp only [List.length_cons] at hlen; omega

/-- C2 amended, at the tokens `badtoken` (Scenario C, no delimiter) and
`https:` (one non-empty segment). -/
theorem split_unique_dies_witness :
    (':' ∉ "badtoken".toList ∧
      ∃ w1, split_unique (reference_env (fun _ => none)) "badtoken".toList (start []) =
          .exit 1 w1 ∧
        w1.stderr = (start ([] : Store)).stderr ++ "fatal: invalid token passed: ".toList ++
          [Char.ofNat 39] ++ "badtoken".toList ++ [Char.ofNat 39] ∧
        w1.stdout = (start ([] : Store)).stdout ∧ w1.calls = (start ([] : Store)).calls ∧
        w1.keyring = (start ([] : Store)).keyring) ∧
    ((tokens "https:".toList).length < 2 ∧
      ∃ w1, split_unique (reference_env (fun _ => none)) "https:".toList (start []) =
          .exit 1 w1 ∧
        w1.stderr = (start ([] : Store)).stderr ++ "fatal: invalid token passed: ".toList ++
          [Char.ofNat 39] ++ "https:".toList ++ [Char.ofNat 39] ∧
        w1.stdout = (start ([] : Store)).stdout ∧ w1.calls = (start ([] : Store)).calls ∧
        w1.keyring = (start ([] : Store)).keyring) :=
  ⟨⟨by decide,
      split_unique_dies (reference_env (fun _ => none)) (fun _ => rfl) "badtoken".toList
        (start []) (Or.inl (by decide))⟩,
    ⟨by decide,
      split_unique_dies (reference_env (fun _ => none)) (fun _ => rfl) "https:".toList
        (start []) (Or.inr (by decide))⟩⟩

/-- C10: whenever `split_unique` returns, protocol and server are non-empty and
free of `:`; and in every run of `main`, whatever the libraries do, every keyring
call that takes a protocol and a server (find and set) receives such a pair. -/
theorem identifier_invariant (env : Env σ) (token : CStr) (w : World σ)
    (argv : List GetoptReturn) (stray : Bool) :
    (∀ parts w1, split_unique env token w = .ret parts w1 →
        segment_ok parts.protocol ∧ segment_ok parts.server) ∧
      (calls_ok w → calls_ok (main env argv stray w).world) :=
  ⟨fun parts w1 h => (split_unique_frame env token w w1 parts h).2.2.2,
    fun hw => (keeps_main env argv stray w hw).1⟩


/-- C10, at the token `https:example.com` and the command line
`--unique=https:example.com` on an empty reference keyring. -/
theorem identifier_invariant_witness :
    (segment_ok "https".toList ∧ segment_ok "example.com".toList) ∧
      calls_ok (main (reference_env (fun _ => none))
        [getopt_long "unique".toList (some "https:example.com".toList) []] false
        (start [])).world :=
  have h := identifier_invariant (reference_env (fun _ => none)) "https:example.com".toList
    (start []) [getopt_long "unique".toList (some "https:example.com".toList) []] false
  ⟨h.1 { protocol := "https".toList, server := "example.com".toList }
      { start [] with strdups := 3 } rfl,
    h.2 (fun c hc => by cases hc)⟩

/-! ## The Get path -/

/-- C3: on the Get path (the option loop ends with `reject = 0` and a token on
which `split_unique` returns, no stray argument), if the find call reports
`CANCELLED` then the process exits with code 0, stdout is untouched, and the
find call is the only library call: no dialog, no set. -/
theorem get_cancelled (env : Env σ) (argv : List GetoptReturn) (w w1 w2 : World σ)
    (o : Options) (token : CStr) (parts : url_parts)
    (entries : List GnomeKeyringNetworkPasswordData) (k : σ)
    (hopt : getopt_loop argv ⟨0, none, none, none⟩ w = .ret o w1)
    (hreject : o.reject = 0) (hunique : o.unique = some token)
    (hsplit : split_unique env token w1 = .ret parts w2)
    (hfind : env.find_network_password w.keyring o.username parts.server parts.protocol =
      (.CANCELLED, entries, k)) :
    ∃ w3, main env argv false w = .exit 0 w3 ∧ w3.stdout = w.stdout ∧ w3.keyring = k ∧
      w3.calls = w.calls ++
        [.find_network_password o.username parts.server parts.protocol] := by
  obtain ⟨hk, -, hout, hcalls⟩ := getopt_loop_frame _ _ _ _ _ hopt
  obtain ⟨hk2, hout2, hcalls2, -⟩ := split_unique_frame _ _ _ _ _ hsplit
  simp [main, hopt, hunique, hsplit, hreject, lookup_credential,
    gnome_keyring_find_network_password_sync, hk, hk2, hfind, gtk_exit, exit, hout, hout2,
    hcalls, hcalls2]

/-- C3, at `--unique=https:example.com` with a keyring whose find call is
cancelled. -/
theorem get_cancelled_witness :
    ∃ w3, main (scripted_env .CANCELLED [] .OK .OK none)
        [getopt_long "unique".toList (some "https:example.com".toList) []] false
        (start ()) = .exit 0 w3 ∧
      w3.stdout = [] ∧ w3.keyring = () ∧
      w3.calls = [.find_network_password none "example.com".toList "https".toList] :=
  get_cancelled (scripted_env .CANCELLED [] .OK .OK none)
    [getopt_long "unique".toList (some "https:example.com".toList) []] (start ())
    (start ()) { start () with strdups := 3 }
    { reject := 0, username := none, description := none,
      unique := some "https:example.com".toList }
    "https:example.com".toList
    { protocol := "https".toList, server := "example.com".toList } [] ()
    rfl rfl rfl rfl rfl

/-- The run of `main` on the Get path when the find call reports `OK`. -/
theorem main_found (env : Env σ) (hmem : ∀ n, env.strdup_errno n = none)
    (argv : List GetoptReturn) (w w1 w2 : World σ)
    (o : Options) (token : CStr) (parts : url_parts)
    (e : GnomeKeyringNetworkPasswordData) (es : List GnomeKeyringNetworkPasswordData)
    (k : σ) (U P : CStr)
    (hopt : getopt_loop argv ⟨0, none, none, none⟩ w = .ret o w1)
    (hreject : o.reject = 0) (hunique : o.unique = some token)
    (hsplit : split_unique env token w1 = .ret parts w2)
    (hfind : env.find_network_password w.keyring o.username parts.server parts.protocol =
      (.OK, e :: es, k))
    (huser : e.user = some U) (hpassword : e.password = some P) :
    ∃ w3, main env argv false w = .exit 0 w3 ∧
      w3.stdout = w.stdout ++ "username=".toList ++ o.username.getD U ++
        "\npassword=".toList ++ P ++ "\n".toList ∧
      w3.keyring = k ∧
      w3.calls = w.calls ++
        [.find_network_password o.username parts.server parts.protocol] := by
  obtain ⟨hk, -, hout, hcalls⟩ := getopt_loop_frame _ _ _ _ _ hopt
  obtain ⟨hk2, hout2, hcalls2, -⟩ := split_unique_frame _ _ _ _ _ hsplit
  cases hu : o.username with
  | none =>
    rw [hu] at hfind
    simp [main, hopt, hunique, hsplit, hreject, lookup_credential,
      gnome_keyring_find_network_password_sync, hk, hk2, hfind, gtk_exit, exit, hout, hout2,
      hcalls, hcalls2, hu, huser, hpassword, xstrdup_ok env hmem, print, credential_lines,
      fmt_s]
  | some u =>
    rw [hu] at hfind
    simp [main, hopt, hunique, hsplit, hreject, lookup_credential,
      gnome_keyring_find_network_password_sync, hk, hk2, hfind, gtk_exit, exit, hout, hout2,
      hcalls, hcalls2, hu, hpassword, xstrdup_ok env hmem, print, credential_lines,
      fmt_s]

/-- C4: on the Get path, if the find call reports `OK` with a list whose first
entry has user `U` and password `P`, then (as long as `strdup` does not fail)
the process exits with code 0 after writing exactly
`username=<u>\npassword=P\n`, where `u` is the `--username` value if there is
one and `U` otherwise; the find call is the only library call. -/
theorem get_found (env : Env σ) (hmem : ∀ n, env.strdup_errno n = none)
    (argv : List GetoptReturn) (w w1 w2 : World σ)
    (o : Options) (token : CStr) (parts : url_parts)
    (e : GnomeKeyringNetworkPasswordData) (es : List GnomeKeyringNetworkPasswordData)
    (k : σ) (U P : CStr)
    (hopt : getopt_loop argv ⟨0, none, none, none⟩ w = .ret o w1)
    (hreject : o.reject = 0) (hunique : o.unique = some token)
    (hsplit : split_unique env token w1 = .ret parts w2)
    (hfind : env.find_network_password w.keyring o.username parts.server parts.protocol =
      (.OK, e :: es, k))
    (huser : e.user = some U) (hpassword : e.password = some P) :
    ∃ w3, main env argv false w = .exit 0 w3 ∧
      w3.stdout = w.stdout ++ "username=".toList ++ o.username.getD U ++
        "\npassword=".toList ++ P ++ "\n".toList ∧
      w3.keyring = k ∧
      w3.calls = w.calls ++
        [.find_network_password o.username parts.server parts.protocol] :=
  main_found env hmem argv w w1 w2 o token parts e es k U P hopt hreject hunique hsplit hfind
    huser hpassword

/-- C4, at Scenario A: `--unique=https:example.com --username=alice` with the
entry `(alice, https, example.com) -> "secret"` in the reference keyring. -/
theorem get_found_witness :
    ∃ w3, main (reference_env (fun _ => none))
        [getopt_long "unique".toList (some "https:example.com".toList) [],
         getopt_long "username".toList (some "alice".toList) []] false
        (start [alice_entry]) = .exit 0 w3 ∧
      w3.stdout = "username=alice\npassword=secret\n".toList ∧
      w3.keyring = [alice_entry] ∧
      w3.calls =
        [.find_network_password (some "alice".toList) "example.com".toList
          "https".toList] :=
  get_found (reference_env (fun _ => none)) (fun _ => rfl)
    [getopt_long "unique".toList (some "https:example.com".toList) [],
     getopt_long "username".toList (some "alice".toList) []] (start [alice_entry])
    (start [alice_entry]) { start [alice_entry] with strdups := 3 }
    { reject := 0, username := some "alice".toList, description := none,
      unique := some "https:example.com".toList }
    "https:example.com".toList
    { protocol := "https".toList, server := "example.com".toList } alice_entry []
    [alice_entry] "alice".toList "secret".toList
    rfl rfl rfl rfl rfl rfl rfl

/-- The run of `main` on the Get path when the find call reports `NO_MATCH`. -/
theorem main_not_found (env : Env σ) (hmem : ∀ n, env.strdup_errno n = none)
    (argv : List GetoptReturn) (w w1 w2 : World σ)
    (o : Options) (token : CStr) (parts : url_parts)
    (entries : List GnomeKeyringNetworkPasswordData) (k : σ)
    (hopt : getopt_loop argv ⟨0, none, none, none⟩ w = .ret o w1)
    (hreject : o.reject = 0) (hunique : o.unique = some token)
    (hsplit : split_unique env token w1 = .ret parts w2)
    (hfind : env.find_network_password w.keyring o.username parts.server parts.protocol =
      (.NO_MATCH, entries, k)) :
    (env.password_dialog o.username = none →
      ∃ w3, main env argv false w = .exit 0 w3 ∧ w3.stdout = w.stdout ∧ w3.keyring = k ∧
        w3.calls = w.calls ++
          [.find_network_password o.username parts.server parts.protocol,
           .password_dialog o.username]) ∧
    (∀ u p, env.password_dialog o.username = some (u, p) →
      ∃ w3, main env argv false w = .exit 0 w3 ∧
        w3.stdout = w.stdout ++ "username=".toList ++ u ++ "\npassword=".toList ++ p ++
          "\n".toList ∧
        w3.keyring =
          (env.set_network_password k (some u) parts.server parts.protocol (some p)).2 ∧
        w3.calls = w.calls ++
          [.find_network_password o.username parts.server parts.protocol,
           .password_dialog o.username,
           .set_network_password (some u) parts.server parts.protocol (some p)]) := by
  obtain ⟨hk, -, hout, hcalls⟩ := getopt_loop_frame _ _ _ _ _ hopt
  obtain ⟨hk2, hout2, hcalls2, -⟩ := split_unique_frame _ _ _ _ _ hsplit
  constructor
  · intro hd
    simp [main, hopt, hunique, hsplit, hreject, lookup_credential,
      gnome_keyring_find_network_password_sync, hk, hk2, hfind, gtk_exit, exit, hout, hout2,
      hcalls, hcalls2, ask_credentials_gui, gnome_password_dialog_run_and_block, hd]
  · intro u p hd
    simp [main, hopt, hunique, hsplit, hreject, lookup_credential,
      gnome_keyring_find_network_password_sync, hk, hk2, hfind, gtk_exit, exit, hout, hout2,
      hcalls, hcalls2, ask_credentials_gui, gnome_password_dialog_run_and_block, hd,
      xstrdup_ok env hmem, store_credential, gnome_keyring_set_network_password_sync,
      print, credential_lines, fmt_s]

/-- C6: on the Get path, if the find call reports `NO_MATCH`, the dialog is run
once, seeded with the input username.  If it is dismissed, the process exits
with code 0, stdout untouched and no set call.  If it yields `(u, p)` then (as
long as `strdup` does not fail) one set call is made with the parsed server and
protocol and exactly `(u, p)`, whatever that call reports, stdout receives
exactly `username=u\npassword=p\n`, and the process exits with code 0. -/
theorem get_not_found (env : Env σ) (hmem : ∀ n, env.strdup_errno n = none)
    (argv : List GetoptReturn) (w w1 w2 : World σ)
    (o : Options) (token : CStr) (parts : url_parts)
    (entries : List GnomeKeyringNetworkPasswordData) (k : σ)
    (hopt : getopt_loop argv ⟨0, none, none, none⟩ w = .ret o w1)
    (hreject : o.reject = 0) (hunique : o.unique = some token)
    (hsplit : split_unique env token w1 = .ret parts w2)
    (hfind : env.find_network_password w.keyring o.username parts.server parts.protocol =
      (.NO_MATCH, entries, k)) :
    (env.password_dialog o.username = none →
      ∃ w3, main env argv false w = .exit 0 w3 ∧ w3.stdout = w.stdout ∧ w3.keyring = k ∧
        w3.calls = w.calls ++
          [.find_network_password o.username parts.server parts.protocol,
           .password_dialog o.username]) ∧
    (∀ u p, env.password_dialog o.username = some (u, p) →
      ∃ w3, main env argv false w = .exit 0 w3 ∧
        w3.stdout = w.stdout ++ "username=".toList ++ u ++ "\npassword=".toList ++ p ++
          "\n".toList ∧
        w3.keyring =
          (env.set_network_password k (some u) parts.server parts.protocol (some p)).2 ∧
        w3.calls = w.calls ++
          [.find_network_password o.username parts.server parts.protocol,
           .password_dialog o.username,
           .set_network_password (some u) parts.server parts.protocol (some p)]) :=
  main_not_found env hmem argv w w1 w2 o token parts entries k hopt hreject hunique hsplit
    hfind

/-- C6, at `--unique=https:example.com` on an empty reference keyring: with the
dialog dismissed (Scenario B), and with the dialog answering `(alice, secret)`. -/
theorem get_not_found_witness :
    (∃ w3, main (reference_env (fun _ => none))
        [getopt_long "unique".toList (some "https:example.com".toList) []] false
        (start []) = .exit 0 w3 ∧
      w3.stdout = [] ∧ w3.keyring = [] ∧
      w3.calls = [.find_network_password none "example.com".toList "https".toList,
        .password_dialog none]) ∧
    (∃ w3, main (reference_env (fun _ => some ("alice".toList, "secret".toList)))
        [getopt_long "unique".toList (some "https:example.com".toList) []] false
        (start []) = .exit 0 w3 ∧
      w3.stdout = "username=alice\npassword=secret\n".toList ∧
      w3.keyring = [alice_entry] ∧
      w3.calls = [.find_network_password none "example.com".toList "https".toList,
        .password_dialog none,
        .set_network_password (some "alice".toList) "example.com".toList "https".toList
          (some "secret".toList)]) :=
  ⟨(get_not_found (reference_env (fun _ => none)) (fun _ => rfl)
      [getopt_long "unique".toList (some "https:example.com".toList) []] (start [])
      (start []) { start [] with strdups := 3 }
      { reject := 0, username := none, description := none,
        unique := some "https:example.com".toList }
      "https:example.com".toList
      { protocol := "https".toList, server := "example.com".toList } [] []
      rfl rfl rfl rfl rfl).1 rfl,
    (get_not_found (reference_env (fun _ => some ("alice".toList, "secret".toList)))
      (fun _ => rfl)
      [getopt_long "unique".toList (some "https:example.com".toList) []] (start [])
      (start []) { start [] with strdups := 3 }
      { reject := 0, username := none, description := none,
        unique := some "https:example.com".toList }
      "https:example.com".toList
      { protocol := "https".toList, server := "example.com".toList } [] []
      rfl rfl rfl rfl rfl).2 "alice".toList "secret".toList rfl⟩

/-! ## The Erase path -/

/-- The run of `main` on the Erase path, by the result of the find call. -/
theorem reject_run (env : Env σ) (argv : List GetoptReturn) (w w1 w2 : World σ)
    (o : Options) (token : CStr) (parts : url_parts)
    (hopt : getopt_loop argv ⟨0, none, none, none⟩ w = .ret o w1)
    (hreject : o.reject ≠ 0) (hunique : o.unique = some token)
    (hsplit : split_unique env token w1 = .ret parts w2) :
    main env argv false w =
      (do remove_credential env o.username parts; gtk_exit 0 : Prog σ Int) w2 := by
  simp [main, hopt, hunique, hsplit, hreject]
  cases remove_credential env o.username parts w2 <;> simp [gtk_exit, exit]


/-- What `remove_credential` does, by the result of the find call. -/
theorem remove_credential_eq (env : Env σ) (username : Option CStr) (parts : url_parts)
    (w : World σ) (res : GnomeKeyringResult)
    (entries : List GnomeKeyringNetworkPasswordData) (k : σ)
    (hfind : env.find_network_password w.keyring username parts.server parts.protocol =
      (res, entries, k)) :
    ((res = .NO_MATCH ∨ res = .CANCELLED) →
      remove_credential env username parts w = .ret () { w with
        keyring := k
        calls := w.calls ++
          [.find_network_password username parts.server parts.protocol] }) ∧
    (res ≠ .NO_MATCH → res ≠ .CANCELLED → res ≠ .OK →
      remove_credential env username parts w = .exit 1 { w with
        keyring := k
        stderr := w.stderr ++ ("fatal: ".toList ++ env.result_to_message res ++ "\n".toList)
        calls := w.calls ++
          [.find_network_password username parts.server parts.protocol] }) ∧
    (res = .OK → entries = [] →
      remove_credential env username parts w = .undefined { w with
        keyring := k
        calls := w.calls ++
          [.find_network_password username parts.server parts.protocol] }) ∧
    (∀ e es, res = .OK → entries = e :: es →
      remove_credential env username parts w =
        if (env.item_delete k e.keyring e.item_id).1 = .OK then
          .ret () { w with
            keyring := (env.item_delete k e.keyring e.item_id).2
            calls := w.calls ++
              [.find_network_password username parts.server parts.protocol,
               .item_delete e.keyring e.item_id] }
        else
          .exit 1 { w with
            keyring := (env.item_delete k e.keyring e.item_id).2
            stderr := w.stderr ++ ("fatal: ".toList ++
              env.result_to_message (env.item_delete k e.keyring e.item_id).1 ++
              "\n".toList)
            calls := w.calls ++
              [.find_network_password username parts.server parts.protocol,
               .item_delete e.keyring e.item_id] }) := by
  refine ⟨?_, ?_, ?_, ?_⟩
  · rintro (rfl | rfl) <;>
      simp [remove_credential, gnome_keyring_find_network_password_sync, hfind]
  · intro h1 h2 h3
    simp [remove_credential, gnome_keyring_find_network_password_sync, hfind, h1, h2, h3,
      die_result, eprint, exit]
  · rintro rfl rfl
    simp [remove_credential, gnome_keyring_find_network_password_sync, hfind,
      undefined_behaviour]
  · rintro e es rfl rfl
    by_cases hd : (env.item_delete k e.keyring e.item_id).1 = .OK <;>
      simp [remove_credential, gnome_keyring_find_network_password_sync, hfind,
        gnome_keyring_item_delete_sync, hd, die_result, eprint, exit]

/-- C7: with `--reject` and a token on which `split_unique` returns, whatever
the keyring does: stdout is untouched and every library call is the find call
or an `item_delete` (no dialog, no set).  If find reports `NO_MATCH` or
`CANCELLED` the process exits with code 0 and no delete is issued; if it
reports `OK` the first listed entry is deleted and the exit code is 0 when the
delete reports `OK` and 1 otherwise; any other find result gives exit code 1.
When find reports `NO_MATCH` and leaves the keyring as it is, the keyring is
unchanged by the run, and a run from any state with that keyring (a later call)
again exits with code 0, writes nothing and leaves the keyring unchanged. -/
theorem reject_path (env : Env σ) (argv : List GetoptReturn) (w w1 w2 : World σ)
    (o : Options) (token : CStr) (parts : url_parts) (res : GnomeKeyringResult)
    (entries : List GnomeKeyringNetworkPasswordData) (k : σ)
    (hopt : getopt_loop argv ⟨0, none, none, none⟩ w = .ret o w1)
    (hreject : o.reject ≠ 0) (hunique : o.unique = some token)
    (hsplit : split_unique env token w1 = .ret parts w2)
    (hfind : env.find_network_password w.keyring o.username parts.server parts.protocol =
      (res, entries, k)) :
    (main env argv false w).world.stdout = w.stdout ∧
    (∀ c ∈ (main env argv false w).world.calls, c ∈ w.calls ∨
      c = .find_network_password o.username parts.server parts.protocol ∨
      ∃ kr i, c = .item_delete kr i) ∧
    ((res = .NO_MATCH ∨ res = .CANCELLED) →
      ∃ w3, main env argv false w = .exit 0 w3 ∧ w3.keyring = k ∧
        w3.calls = w.calls ++
          [.find_network_password o.username parts.server parts.protocol]) ∧
    (res ≠ .NO_MATCH → res ≠ .CANCELLED → res ≠ .OK →
      ∃ w3, main env argv false w = .exit 1 w3 ∧ w3.keyring = k ∧
        w3.calls = w.calls ++
          [.find_network_password o.username parts.server parts.protocol]) ∧
    (∀ e es, res = .OK → entries = e :: es →
      ∃ w3, main env argv false w =
          .exit (if (env.item_delete k e.keyring e.item_id).1 = .OK then 0 else 1) w3 ∧
        w3.keyring = (env.item_delete k e.keyring e.item_id).2 ∧
        w3.calls = w.calls ++
          [.find_network_password o.username parts.server parts.protocol,
           .item_delete e.keyring e.item_id]) ∧
    ((∀ n, env.strdup_errno n = none) → res = .NO_MATCH → k = w.keyring →
      ∀ v : World σ, v.keyring = w.keyring →
        ∃ v3, main env argv false v = .exit 0 v3 ∧ v3.stdout = v.stdout ∧
          v3.keyring = w.keyring ∧
          v3.calls = v.calls ++
            [.find_network_password o.username parts.server parts.protocol]) := by
  obtain ⟨hk, -, hout, hcalls⟩ := getopt_loop_frame _ _ _ _ _ hopt
  obtain ⟨hk2, hout2, hcalls2, -⟩ := split_unique_frame _ _ _ _ _ hsplit
  have hrun := reject_run env argv w w1 w2 o token parts hopt hreject hunique hsplit
  have hfind2 : env.find_network_password w2.keyring o.username parts.server
      parts.protocol = (res, entries, k) := by rw [hk2, hk, hfind]
  obtain ⟨hrem1, hrem2, hrem3, hrem4⟩ :=
    remove_credential_eq env o.username parts w2 res entries k hfind2
  have hcases : (res = .NO_MATCH ∨ res = .CANCELLED) ∨
      (res ≠ .NO_MATCH ∧ res ≠ .CANCELLED ∧ res ≠ .OK) ∨ (res = .OK ∧ entries = []) ∨
      (∃ e es, res = .OK ∧ entries = e :: es) := by
    cases res <;> cases entries <;> simp
  rw [hrun, bind_apply]
  refine ⟨?_, ?_, ?_, ?_, ?_, ?_⟩
  · rcases hcases with h | ⟨h1, h2, h3⟩ | ⟨h1, h2⟩ | ⟨e, es, h1, h2⟩
    · simp [hrem1 h, Outcome.world, hout, hout2, gtk_exit, exit]
    · simp [hrem2 h1 h2 h3, Outcome.world, hout, hout2]
    · simp [hrem3 h1 h2, Outcome.world, hout, hout2]
    · rw [hrem4 e es h1 h2]
      split_ifs <;> simp [Outcome.world, hout, hout2, gtk_exit, exit]
  · rcases hcases with h | ⟨h1, h2, h3⟩ | ⟨h1, h2⟩ | ⟨e, es, h1, h2⟩
    · simp only [hrem1 h, Outcome.world, hcalls, hcalls2, gtk_exit, exit,
        List.mem_append, List.mem_singleton]
      tauto
    · simp only [hrem2 h1 h2 h3, Outcome.world, hcalls, hcalls2, List.mem_append,
        List.mem_singleton]
      tauto
    · simp only [hrem3 h1 h2, Outcome.world, hcalls, hcalls2, List.mem_append,
        List.mem_singleton]
      tauto
    · rw [hrem4 e es h1 h2]
      split_ifs <;>
        simp only [Outcome.world, hcalls, hcalls2, gtk_exit, exit, List.mem_append,
          List.mem_cons, List.mem_singleton, List.not_mem_nil, or_false] <;>
        rintro c (hc | hc | hc)
      · exact Or.inl hc
      · exact Or.inr (Or.inl hc)
      · exact Or.inr (Or.inr ⟨_, _, hc⟩)
      · exact Or.inl hc
      · exact Or.inr (Or.inl hc)
      · exact Or.inr (Or.inr ⟨_, _, hc⟩)
  · intro h
    simp [hrem1 h, gtk_exit, exit, hcalls, hcalls2]
  · intro h1 h2 h3
    simp [hrem2 h1 h2 h3, hcalls, hcalls2]
  · intro e es h1 h2
    rw [hrem4 e es h1 h2]
    split_ifs <;> simp [gtk_exit, exit, hcalls, hcalls2]
  · rintro hmem rfl rfl v hv
    obtain ⟨v1, hv1⟩ := getopt_loop_indep argv _ o w w1 hopt v
    obtain ⟨hkv, -, houtv, hcallsv⟩ := getopt_loop_frame _ _ _ _ _ hv1
    have hv2 := split_unique_indep env env hmem hmem token w1 w2 parts hsplit v1
    have hrunv := reject_run env argv v v1 _ o token parts hv1 hreject hunique hv2
    have hfindv : env.find_network_password
        ({ v1 with strdups := v1.strdups + 3 } : World σ).keyring o.username parts.server
        parts.protocol = (.NO_MATCH, entries, w.keyring) := by
      rw [← hfind]; simp [hkv, hv]
    rw [hrunv, bind_apply,
      (remove_credential_eq env o.username parts _ _ _ _ hfindv).1 (Or.inl rfl)]
    simp [gtk_exit, exit, houtv, hcallsv]

/-- C7, at Scenario D: `--reject --unique=https:example.com --username=alice`
with the entry of alice in the reference keyring.  The entry is removed, nothing
is printed and the exit code is 0. -/
theorem reject_path_witness :
    ∃ w3, main (reference_env (fun _ => none))
        [getopt_long "reject".toList none [],
         getopt_long "unique".toList (some "https:example.com".toList) [],
         getopt_long "username".toList (some "alice".toList) []] false
        (start [alice_entry]) = .exit 0 w3 ∧
      w3.keyring = [] ∧
      w3.calls =
        [.find_network_password (some "alice".toList) "example.com".toList "https".toList,
         .item_delete none 1] :=
  (reject_path (reference_env (fun _ => none))
    [getopt_long "reject".toList none [],
     getopt_long "unique".toList (some "https:example.com".toList) [],
     getopt_long "username".toList (some "alice".toList) []] (start [alice_entry])
    (start [alice_entry]) { start [alice_entry] with strdups := 3 }
    { reject := 1, username := some "alice".toList, description := none,
      unique := some "https:example.com".toList }
    "https:example.com".toList
    { protocol := "https".toList, server := "example.com".toList } .OK [alice_entry]
    [alice_entry] rfl (by decide) rfl rfl rfl).2.2.2.2.1 alice_entry [] rfl rfl

/-! ## Store failures -/

/-- C5, the code at the failing input: `--unique=https:example.com`, find
reports `NO_MATCH`, the dialog yields `(alice, secret)` and the set call reports
`DENIED`.  The process prints the credential and exits with code 0, with
nothing on stderr. -/
theorem store_failure_ignored :
    main (scripted_env .NO_MATCH [] .DENIED .OK (some ("alice".toList, "secret".toList)))
        [getopt_long "unique".toList (some "https:example.com".toList) []] false
        (start ()) =
      .exit 0
        { keyring := (), strdups := 5,
          stdout := "username=alice\npassword=secret\n".toList, stderr := [],
          calls := [.find_network_password none "example.com".toList "https".toList,
            .password_dialog none,
            .set_network_password (some "alice".toList) "example.com".toList
              "https".toList (some "secret".toList)] } :=
  rfl

/-! ## Unrecognized arguments -/

theorem Store.filter_none (s : Store) (user : Option CStr) (server protocol : CStr)
    (hnew : ∀ e ∈ s, ¬(e.server = server ∧ e.protocol = protocol)) :
    s.filter (Store.matches user server protocol) = [] := by
  rw [List.filter_eq_nil_iff]
  intro e he hm
  apply hnew e he
  simp only [Store.matches, Bool.and_eq_true, decide_eq_true_eq] at hm
  exact ⟨hm.1.1, hm.1.2⟩

theorem Store.find_none (s : Store) (user : Option CStr) (server protocol : CStr)
    (hnew : ∀ e ∈ s, ¬(e.server = server ∧ e.protocol = protocol)) :
    Store.find s user server protocol = (.NO_MATCH, [], s) := by
  simp [Store.find, Store.filter_none s user server protocol hnew]

theorem Store.set_new (s : Store) (user : Option CStr) (server protocol : CStr)
    (password : Option CStr)
    (hnew : ∀ e ∈ s, ¬(e.server = server ∧ e.protocol = protocol)) :
    Store.set s user server protocol password =
      (.OK, s ++ [Store.fresh s user server protocol password]) := by
  have h : s.any (fun e => decide (e.user = user) && decide (e.server = server) &&
      decide (e.protocol = protocol)) = false := by
    rw [List.any_eq_false]
    intro e he hm
    apply hnew e he
    simp only [Bool.and_eq_true, decide_eq_true_eq] at hm
    exact ⟨hm.1.2, hm.2⟩
  simp [Store.set, h]

theorem Store.find_appended (s : Store) (user : Option CStr) (server protocol : CStr)
    (e : GnomeKeyringNetworkPasswordData)
    (hnew : ∀ x ∈ s, ¬(x.server = server ∧ x.protocol = protocol))
    (hserver : e.server = server) (hprotocol : e.protocol = protocol)
    (huser : user = none ∨ e.user = user) :
    Store.find (s ++ [e]) user server protocol = (.OK, [e], s ++ [e]) := by
  have hm : Store.matches user server protocol e = true := by
    rcases huser with h | h <;> simp [Store.matches, hserver, hprotocol, h]
  simp [Store.find, List.filter_append, Store.filter_none s user server protocol hnew, hm]


/-- C8, refuted as stated: with `--unique=https:example.com --username=alice`
on an empty reference keyring and a dialog in which the user types
`(bob, pw)`, the first run stores and prints `(bob, pw)`; the second run with
the same arguments on the resulting keyring finds nothing for `alice` and runs
the dialog again. -/
theorem round_trip_prompts_again :
    ∃ wa wb,
      main (reference_env (fun _ => some ("bob".toList, "pw".toList)))
          [getopt_long "unique".toList (some "https:example.com".toList) [],
           getopt_long "username".toList (some "alice".toList) []] false (start []) =
        .exit 0 wa ∧
      wa.stdout = "username=bob\npassword=pw\n".toList ∧
      main (reference_env (fun _ => some ("bob".toList, "pw".toList)))
          [getopt_long "unique".toList (some "https:example.com".toList) [],
           getopt_long "username".toList (some "alice".toList) []] false
          (start wa.keyring) =
        .exit 0 wb ∧
      Call.password_dialog (some "alice".toList) ∈ wb.calls :=
  ⟨{ keyring := [{ alice_entry with user := some "bob".toList, password := some "pw".toList }],
     strdups := 5, stdout := "username=bob\npassword=pw\n".toList, stderr := [],
     calls := [.find_network_password (some "alice".toList) "example.com".toList
         "https".toList,
       .password_dialog (some "alice".toList),
       .set_network_password (some "bob".toList) "example.com".toList "https".toList
         (some "pw".toList)] },
   { keyring := [{ alice_entry with user := some "bob".toList, password := some "pw".toList }],
     strdups := 5, stdout := "username=bob\npassword=pw\n".toList, stderr := [],
     calls := [.find_network_password (some "alice".toList) "example.com".toList
         "https".toList,
       .password_dialog (some "alice".toList),
       .set_network_password (some "bob".toList) "example.com".toList "https".toList
         (some "pw".toList)] },
   rfl, rfl, rfl, by decide⟩

/-- C8, amended: on the reference keyring (upsert, first-match find), for every
identifier with no prior entry, every input username that is absent or equal to
the username `u` coming from the dialog, and every password `p`: a Get run that
runs the dialog and stores `(u, p)` prints `username=u\npassword=p\n`, and a
second Get run with the same arguments on the resulting keyring prints the same
two lines, its only library call being the find call (the dialog is not run,
whatever it would answer). -/
theorem get_round_trip (dialog dialog2 : Option CStr → Option (CStr × CStr))
    (argv : List GetoptReturn) (s : Store) (w1 w2 : World Store) (o : Options)
    (token : CStr) (parts : url_parts) (u p : CStr)
    (hopt : getopt_loop argv ⟨0, none, none, none⟩ (start s) = .ret o w1)
    (hreject : o.reject = 0) (hunique : o.unique = some token)
    (hsplit : split_unique (reference_env dialog) token w1 = .ret parts w2)
    (hnew : ∀ e ∈ s, ¬(e.server = parts.server ∧ e.protocol = parts.protocol))
    (hdialog : dialog o.username = some (u, p))
    (huser : o.username = none ∨ o.username = some u) :
    ∃ wa, main (reference_env dialog) argv false (start s) = .exit 0 wa ∧
      wa.stdout = "username=".toList ++ u ++ "\npassword=".toList ++ p ++ "\n".toList ∧
      wa.calls = [.find_network_password o.username parts.server parts.protocol,
        .password_dialog o.username,
        .set_network_password (some u) parts.server parts.protocol (some p)] ∧
      ∃ wb, main (reference_env dialog2) argv false (start wa.keyring) = .exit 0 wb ∧
        wb.stdout = "username=".toList ++ u ++ "\npassword=".toList ++ p ++ "\n".toList ∧
        wb.calls = [.find_network_password o.username parts.server parts.protocol] := by
  obtain ⟨wa, hwa, hout, hkey, hcalls⟩ :=
    (main_not_found (reference_env dialog) (fun _ => rfl) argv (start s) w1 w2 o token parts
      [] s hopt hreject hunique hsplit
      (Store.find_none s o.username parts.server parts.protocol hnew)).2 u p hdialog
  refine ⟨wa, hwa, by simpa [start] using hout, by simpa [start] using hcalls, ?_⟩
  have hkey2 : wa.keyring =
      s ++ [Store.fresh s (some u) parts.server parts.protocol (some p)] := by
    rw [hkey]
    show (Store.set s (some u) parts.server parts.protocol (some p)).2 = _
    rw [Store.set_new s (some u) parts.server parts.protocol (some p) hnew]
  obtain ⟨v1, hv1⟩ := getopt_loop_indep argv _ o (start s) w1 hopt (start wa.keyring)
  have hv2 := split_unique_indep (reference_env dialog) (reference_env dialog2)
    (fun _ => rfl) (fun _ => rfl) token w1 w2 parts hsplit v1
  obtain ⟨wb, hwb, hout2, -, hcalls2⟩ :=
    main_found (reference_env dialog2) (fun _ => rfl) argv (start wa.keyring) v1 _ o token
      parts _ [] wa.keyring u p hv1 hreject hunique hv2
      (by
        show Store.find wa.keyring o.username parts.server parts.protocol = _
        rw [hkey2]
        exact Store.find_appended s o.username parts.server parts.protocol _ hnew rfl rfl
          (by rcases huser with h | h <;> simp [h, Store.fresh]))
      rfl rfl
  refine ⟨wb, hwb, ?_, by simpa [start] using hcalls2⟩
  rcases huser with h | h <;> simpa [start, h] using hout2

/-- C8 amended, at `--unique=https:example.com` without `--username` on an empty
reference keyring, the dialog answering `(alice, secret)`. -/
theorem get_round_trip_witness :
    ∃ wa, main (reference_env (fun _ => some ("alice".toList, "secret".toList)))
        [getopt_long "unique".toList (some "https:example.com".toList) []] false
        (start []) = .exit 0 wa ∧
      wa.stdout = "username=alice\npassword=secret\n".toList ∧
      wa.calls = [.find_network_password none "example.com".toList "https".toList,
        .password_dialog none,
        .set_network_password (some "alice".toList) "example.com".toList "https".toList
          (some "secret".toList)] ∧
      ∃ wb, main (reference_env (fun _ => none))
          [getopt_long "unique".toList (some "https:example.com".toList) []] false
          (start wa.keyring) = .exit 0 wb ∧
        wb.stdout = "username=alice\npassword=secret\n".toList ∧
        wb.calls = [.find_network_password none "example.com".toList "https".toList] :=
  get_round_trip (fun _ => some ("alice".toList, "secret".toList)) (fun _ => none)
    [getopt_long "unique".toList (some "https:example.com".toList) []] []
    (start []) { start [] with strdups := 3 }
    { reject := 0, username := none, description := none,
      unique := some "https:example.com".toList }
    "https:example.com".toList
    { protocol := "https".toList, server := "example.com".toList }
    "alice".toList "secret".toList rfl rfl rfl rfl (fun _ h => by cases h) rfl (Or.inl rfl)

end CredentialKeyring
